import Mathlib

/-
Shallow embedding of the `collie` columnar query engine
(`src/bitindex/mod.rs`, `src/column.rs`, `src/opcode.rs`, `src/main.rs`).

Machine integers (`u64` words of the bitmap index, `u8` bytes of the
inline-string buffer, `usize` offsets and indices) are modelled as `Nat`;
the bitmap-index operations apply the `u64` wrap-around explicitly where
the source relies on it (two's-complement negation, bitwise NOT).
Rust panics (out-of-bounds indexing, failed `unwrap`, `unimplemented!`)
are modelled as an explicit outcome, distinct from a returned
`Err(VMError)`.
-/

namespace Collie

/-- Model of `u64::trailing_zeros` restricted to one word: fuel-bounded
division by two.  A nonzero word below `2 ^ 64` has at most 63 trailing
zeros, so fuel 64 is never exhausted; `trailing_zeros 0 = 64` exactly as
the Rust intrinsic returns the bit width. -/
def tzAux : Nat → Nat → Nat
  | 0, _ => 0
  | fuel + 1, b => if b % 2 = 1 then 0 else 1 + tzAux fuel (b / 2)

/-- Rust `u64::trailing_zeros` on a word modelled as `Nat`. -/
def trailing_zeros (b : Nat) : Nat :=
  if b = 0 then 64 else tzAux 64 b

/-- `BitIndex` (`src/bitindex/mod.rs`): packed `u64` words; bit `i % 64`
of word `i / 64` records membership of row position `i`.  The source
stores no logical length. -/
structure BitIndex where
  data : List Nat
deriving Repr, DecidableEq

/-- `BitIndex::for_col_len`: `vec![0; len / 64 + 1]`. -/
def BitIndex.for_col_len (len : Nat) : BitIndex :=
  ⟨List.replicate (len / 64 + 1) 0⟩

/-- `BitIndex::set`: `block = idx >> 6`, `bit = idx % 64`,
`data[block] |= 1 << bit`.  The Rust indexing `self.data[block]` would
panic for `block ≥ data.len()`; every caller in the source sets positions
within the capacity allocated by `for_col_len`, where the access is in
bounds, so the model reads with default `0` and writes with `List.set`
(a no-op out of range) instead of carrying a panic outcome. -/
def BitIndex.set (bi : BitIndex) (idx : Nat) : BitIndex :=
  ⟨bi.data.set (idx / 64) ((bi.data.getD (idx / 64) 0) ||| (1 <<< (idx % 64)))⟩

/-- `BitIndex::inverted`: maps `!x` over every word; on `u64`, bitwise
NOT is XOR with the all-ones word `2 ^ 64 - 1`.  No masking of padding
bits happens in the source. -/
def BitIndex.inverted (bi : BitIndex) : BitIndex :=
  ⟨bi.data.map (fun w => (2 ^ 64 - 1) ^^^ w)⟩

/-- One word of the member-traversal loop shared by `BitIndex::select`
and `BitIndex::for_each`: while the word is nonzero, isolate the lowest
set bit with `(block as i64) & -(block as i64)` (two's-complement
negation of a `u64` is `(2 ^ 64 - block) % 2 ^ 64`), report
`block_idx * 64 + trailing_zeros`, clear the bit by XOR with the mask.
Each round clears one set bit and a `u64` word has at most 64 of them,
so fuel 64 is never exhausted for words below `2 ^ 64`. -/
def blockMembersAux : Nat → Nat → Nat → List Nat
  | 0, _, _ => []
  | fuel + 1, blockIdx, block =>
    if block = 0 then []
    else
      let mask := block &&& ((2 ^ 64 - block % 2 ^ 64) % 2 ^ 64)
      let tz := trailing_zeros block
      (blockIdx * 64 + tz) :: blockMembersAux fuel blockIdx (block ^^^ mask)

/-- The ascending list of member positions that `BitIndex::select` and
`BitIndex::for_each` traverse (both run the identical lowest-set-bit
loop over the words in order). -/
def BitIndex.members (bi : BitIndex) : List Nat :=
  (bi.data.enum.map (fun p => blockMembersAux 64 p.1 p.2)).flatten

/-- `BitIndex::select` (the spec's "gather"): pushes `col[idx].clone()`
for every member position `idx` in ascending order.  The Rust indexing
panics when `idx ≥ col.len()`; the panic is modelled by `none`. -/
def BitIndex.select (bi : BitIndex) (col : List α) : Option (List α) :=
  bi.members.mapM (fun idx => col[idx]?)

/-- Observer used to state the claims: position `i` is a member of the
bitmap exactly when bit `i % 64` of word `i / 64` is set, the bit that
`set i` establishes and that the traversal loop reports. -/
def BitIndex.memb (bi : BitIndex) (i : Nat) : Bool :=
  Nat.testBit (bi.data.getD (i / 64) 0) (i % 64)

/-- Model of Rust `f64` restricted to what the source exercises: values
are stored, cloned and compared with IEEE-754 `PartialEq` (`NaN` equals
nothing, itself included).  The arithmetic opcodes (`AddVs`, `DivVs`)
are never executed, so finite values are carried exactly. -/
inductive F64
  | nan
  | finite (q : Rat)
deriving Repr, DecidableEq

/-- IEEE-754 equality, the `PartialEq<f64>` instance `_filter_eq_bool`
compares with. -/
def F64.feq : F64 → F64 → Bool
  | .finite a, .finite b => a = b
  | _, _ => false

/-- `Scalar` (`src/column.rs`): `EntityT = u64` ids are modelled as
`Nat` (they are only stored and compared, never computed with). -/
inductive Scalar
  | Bool : Bool → Scalar
  | Num : F64 → Scalar
  | Str : String → Scalar
  | Entity : Nat → Scalar
  | Record : List Scalar → Scalar

/-- Modelled from the spec: the module `errors.rs` defining `VMError` is
not present under `src/`; spec section 7 lists the error kinds
TypeError (carrying a message, as `main.rs` and `column.rs` construct
`VMError::TypeError(String)`), IllegalOpcode, IndexError and RefInUse.
The executed code constructs only `TypeError` and `IllegalOpcode`.  The
interpolated `Debug` payload of each `format!` message is elided; the
static message text is kept. -/
inductive VMError
  | TypeError : String → VMError
  | IllegalOpcode : VMError
  | IndexError : VMError
  | RefInUse : VMError
deriving Repr, DecidableEq

/-- Outcome of a fallible piece of the Rust code: `ok` for a normal
value, `vmErr` for a returned `Err(VMError)`, and `panicked` for a Rust
panic (out-of-bounds indexing, failed `unwrap`, `unimplemented!`). -/
inductive Res (α : Type)
  | ok : α → Res α
  | vmErr : VMError → Res α
  | panicked : Res α
deriving Repr, DecidableEq

/-- `BoolColumn`: a bitmap index used as a column of booleans. -/
structure BoolColumn where
  data : BitIndex
deriving Repr, DecidableEq

/-- `NumColumn`: a vector of `f64`. -/
structure NumColumn where
  data : List F64
deriving Repr, DecidableEq

/-- `StrColumn`: a vector of owned strings. -/
structure StrColumn where
  data : List String
deriving Repr, DecidableEq

/-- `InlineStrColumn`: all strings concatenated in one byte buffer
(`Vec<u8>`, bytes modelled as `Nat`) with an offsets array delimiting
each string. -/
structure InlineStrColumn where
  data : List Nat
  offsets : List Nat
deriving Repr, DecidableEq

/-- `EntityColumn`: a vector of `u64` entity ids. -/
structure EntityColumn where
  data : List Nat
deriving Repr, DecidableEq

/-- The UTF-8 bytes of a string, as `str::as_bytes` and
`String::into_bytes` expose them; `s.len()` in the source is the byte
length, `(strBytes s).length` here. -/
def strBytes (s : String) : List Nat :=
  (s.data.flatMap String.utf8EncodeChar).map UInt8.toNat

/-- `InlineStrColumn::from_strs`: extend the buffer with each string's
bytes and push `offsets.last().unwrap() + s.len()`.  The `unwrap` is
safe in the source because `offsets` is initialised to `[0]` and only
grows; the model mirrors that with `getLastD 0`, whose default is never
taken. -/
def InlineStrColumn.from_strs (strs : List String) : InlineStrColumn :=
  let res := strs.foldl
    (fun (acc : List Nat × List Nat) s =>
      (acc.1 ++ strBytes s, acc.2 ++ [acc.2.getLastD 0 + (strBytes s).length]))
    ([], [0])
  ⟨res.1, res.2⟩

/-- `_filter_eq_bool` (`src/column.rs`): allocate a mask sized for the
column, then set the position of every element equal to the probe value.
The element equality is the `PartialEq` instance of the element type,
passed in explicitly (IEEE-754 equality for `f64`). -/
def _filter_eq_bool (eq : α → α → Bool) (col : List α) (val : α) : BoolColumn :=
  ⟨(col.enum.filter (fun p => eq p.2 val)).foldl
      (fun bi p => bi.set p.1) (BitIndex.for_col_len col.length)⟩

/-- `BoolColumn::filter`: `true` copies the column's own mask, `false`
returns its complement (`inverted`, no padding-bit masking); a
non-boolean scalar is a TypeError. -/
def BoolColumn.filter (c : BoolColumn) (val : Scalar) : Res BoolColumn :=
  match val with
  | .Bool true => .ok ⟨c.data⟩
  | .Bool false => .ok ⟨c.data.inverted⟩
  | _ => .vmErr (.TypeError "Expected a boolean value")

/-- `BoolColumn::select` is `unimplemented!()`: an unconditional panic
whenever it is invoked, for every argument. -/
def BoolColumn.select (_c : BoolColumn) (_mask : BoolColumn) : Res BoolColumn :=
  .panicked

/-- `NumColumn::filter`. -/
def NumColumn.filter (c : NumColumn) (val : Scalar) : Res BoolColumn :=
  match val with
  | .Num x => .ok (_filter_eq_bool F64.feq c.data x)
  | _ => .vmErr (.TypeError "Expected a numeric value")

/-- `NumColumn::select`: `mask.data.select(&self.data)`; the unchecked
indexing inside `BitIndex::select` panics when a member position is out
of the column's range. -/
def NumColumn.select (c : NumColumn) (mask : BoolColumn) : Res NumColumn :=
  match mask.data.select c.data with
  | some res => .ok ⟨res⟩
  | none => .panicked

/-- `StrColumn::filter`. -/
def StrColumn.filter (c : StrColumn) (val : Scalar) : Res BoolColumn :=
  match val with
  | .Str x => .ok (_filter_eq_bool (fun a b => a = b) c.data x)
  | _ => .vmErr (.TypeError "Expected a string value")

/-- `StrColumn::select`. -/
def StrColumn.select (c : StrColumn) (mask : BoolColumn) : Res StrColumn :=
  match mask.data.select c.data with
  | some res => .ok ⟨res⟩
  | none => .panicked

/-- `EntityColumn::filter`. -/
def EntityColumn.filter (c : EntityColumn) (val : Scalar) : Res BoolColumn :=
  match val with
  | .Entity x => .ok (_filter_eq_bool (fun a b => a = b) c.data x)
  | _ => .vmErr (.TypeError "Expected an entity-id value")

/-- `EntityColumn::select`. -/
def EntityColumn.select (c : EntityColumn) (mask : BoolColumn) : Res EntityColumn :=
  match mask.data.select c.data with
  | some res => .ok ⟨res⟩
  | none => .panicked

/-- Loop body of `InlineStrColumn::filter` over the positions
`0 .. offsets.len() - 1`: slice `data[offsets[i] .. offsets[i+1]]`
(a Rust panic when either bound is absent or the range is invalid,
modelled by `panicked`) and set position `i` when the slice equals the
probe's bytes. -/
def inlineFilterGo (data : List Nat) (offsets : List Nat) (sb : List Nat) :
    List Nat → BitIndex → Res BitIndex
  | [], pos => .ok pos
  | i :: rest, pos =>
    match offsets[i]?, offsets[i + 1]? with
    | some o1, some o2 =>
      if o1 ≤ o2 ∧ o2 ≤ data.length then
        inlineFilterGo data offsets sb rest
          (if (data.take o2).drop o1 = sb then pos.set i else pos)
      else .panicked
    | _, _ => .panicked

/-- `InlineStrColumn::filter`: allocates the mask with
`for_col_len(offsets.len())` (note: the offsets length, one more than
the number of strings) and scans `0 .. offsets.len() - 1`.  When
`offsets` is empty the source's `offsets.len() - 1` underflows `usize`
and the function panics. -/
def InlineStrColumn.filter (c : InlineStrColumn) (val : Scalar) : Res BoolColumn :=
  match val with
  | .Str x =>
    if c.offsets.length = 0 then .panicked
    else
      match inlineFilterGo c.data c.offsets (strBytes x)
          (List.range (c.offsets.length - 1))
          (BitIndex.for_col_len c.offsets.length) with
      | .ok pos => .ok ⟨pos⟩
      | .vmErr e => .vmErr e
      | .panicked => .panicked
  | _ => .vmErr (.TypeError "Expected a string value")

/-- Loop body of `InlineStrColumn::select` over the mask's member
positions, mirroring the source faithfully, its defect included: the
offset pushed is `offsets[idx] + bytes.len()` where `offsets` is the
OUTPUT vector under construction and `idx` the member's position in the
SOURCE column — a Rust panic whenever `idx` is not (yet) a valid index
of the output vector, and a stale offset otherwise. -/
def inlineSelectGo (c : InlineStrColumn) :
    List Nat → List Nat → List Nat → Res InlineStrColumn
  | [], data, offsets => .ok ⟨data, offsets⟩
  | idx :: rest, data, offsets =>
    match c.offsets[idx]?, c.offsets[idx + 1]? with
    | some o1, some o2 =>
      if o1 ≤ o2 ∧ o2 ≤ c.data.length then
        match offsets[idx]? with
        | some off =>
          inlineSelectGo c rest (data ++ ((c.data.take o2).drop o1))
            (offsets ++ [off + ((c.data.take o2).drop o1).length])
        | none => .panicked
      else .panicked
    | _, _ => .panicked

/-- `InlineStrColumn::select`: iterate the mask's members with the
`for_each` traversal, starting from an empty buffer and offsets `[0]`. -/
def InlineStrColumn.select (c : InlineStrColumn) (mask : BoolColumn) : Res InlineStrColumn :=
  inlineSelectGo c mask.data.members [] [0]

/-- `Column` (`src/column.rs`): the closed set of five physical
representations. -/
inductive Column
  | Bool : BoolColumn → Column
  | Num : NumColumn → Column
  | Str : StrColumn → Column
  | Entity : EntityColumn → Column
  | InlineStr : InlineStrColumn → Column
deriving Repr, DecidableEq

/-- Dispatch of `ColumnT::filter` over the representations. -/
def Column.filter : Column → Scalar → Res BoolColumn
  | .Bool c, v => c.filter v
  | .Num c, v => c.filter v
  | .Str c, v => c.filter v
  | .Entity c, v => c.filter v
  | .InlineStr c, v => c.filter v

/-- Dispatch of `ColumnT::select` over the representations; each result
is rewrapped in the identical representation. -/
def Column.select : Column → BoolColumn → Res Column
  | .Bool c, m =>
    match c.select m with
    | .ok r => .ok (.Bool r)
    | .vmErr e => .vmErr e
    | .panicked => .panicked
  | .Num c, m =>
    match c.select m with
    | .ok r => .ok (.Num r)
    | .vmErr e => .vmErr e
    | .panicked => .panicked
  | .Str c, m =>
    match c.select m with
    | .ok r => .ok (.Str r)
    | .vmErr e => .vmErr e
    | .panicked => .panicked
  | .Entity c, m =>
    match c.select m with
    | .ok r => .ok (.Entity r)
    | .vmErr e => .vmErr e
    | .panicked => .panicked
  | .InlineStr c, m =>
    match c.select m with
    | .ok r => .ok (.InlineStr r)
    | .vmErr e => .vmErr e
    | .panicked => .panicked

/-- Observer for stating the claims: the logical length of a column is
its number of elements.  The Bool representation stores no length, so
its bit capacity (64 bits per word) stands in. -/
def Column.length : Column → Nat
  | .Bool c => c.data.data.length * 64
  | .Num c => c.data.length
  | .Str c => c.data.length
  | .Entity c => c.data.length
  | .InlineStr c => c.offsets.length - 1

/-- Observer: whether a column uses the boolean-mask representation. -/
def isBoolRep : Column → Bool
  | .Bool _ => true
  | _ => false

/-- `Op` (`src/opcode.rs`). -/
inductive Op
  | Lit : Scalar → Op
  | Col : Nat → Op
  | Select : Nat → Op
  | FilterEq : Op
  | AddVs : Op
  | DivVs : Op

/-- A stack `Rc<Column>` handle.  `table i` is a clone of the table's
own reference (`Op::Col`), so its strong count is at least 2 for the
whole run — the `VM` owns `self.columns` throughout; `fresh c` is a
reference newly allocated by `FilterEq` or `Select`, and since no opcode
ever duplicates a stack slot, its strong count is exactly 1 when it is
popped. -/
inductive ColRef
  | table : Nat → ColRef
  | fresh : Column → ColRef

/-- `Value` (`src/main.rs`): a stack slot. -/
inductive Value
  | Scalar : Scalar → Value
  | ColumnRef : ColRef → Value

/-- Reading through an `Rc<Column>` handle (`Deref`).  A `table i`
handle is only ever created by `Op::Col` after the bounds check, so the
lookup never misses in a reachable state. -/
def ColRef.deref (cols : List Column) : ColRef → Option Column
  | .table i => cols[i]?
  | .fresh c => some c

/-- `VM::expect_col_bool`: `Rc::try_unwrap(v).unwrap()` then a pattern
match.  `Rc::try_unwrap` succeeds only on a uniquely owned handle: a
`fresh` reference is uniquely owned by its stack slot, while a `table`
reference always shares ownership with the table itself, so
`try_unwrap` returns `Err` and the `unwrap` panics.  On unique
ownership, a non-Bool column is a TypeError. -/
def expect_col_bool (v : ColRef) : Res BoolColumn :=
  match v with
  | .fresh (.Bool b) => .ok b
  | .fresh _ => .vmErr (.TypeError "Type error: expected a boolean column")
  | .table _ => .panicked

/-- One dispatch step of `VM::run` on the current stack.  `pop_scalar`
and `pop_column` return a TypeError when the stack is empty or the top
slot has the wrong tag; `Op::Col` indexes `self.columns[idx]` unchecked
(a panic out of bounds); `Op::Select` ignores its numeric operand,
pops the data column, pops the selector, narrows it with
`expect_col_bool` and pushes the freshly allocated result;
`AddVs`/`DivVs` fall to the catch-all `Err(IllegalOpcode)`. -/
def VM.step (cols : List Column) (stack : List Value) : Op → Res (List Value)
  | .Lit s => .ok (.Scalar s :: stack)
  | .Col idx =>
    if idx < cols.length then .ok (.ColumnRef (.table idx) :: stack)
    else .panicked
  | .FilterEq =>
    match stack with
    | .Scalar s :: .ColumnRef cr :: rest =>
      match cr.deref cols with
      | some col =>
        match col.filter s with
        | .ok mask => .ok (.ColumnRef (.fresh (.Bool mask)) :: rest)
        | .vmErr e => .vmErr e
        | .panicked => .panicked
      | none => .panicked
    | .Scalar _ :: _ => .vmErr (.TypeError "expected a column value")
    | _ => .vmErr (.TypeError "expected a scalar value")
  | .Select _ =>
    match stack with
    | .ColumnRef dataRef :: .ColumnRef selRef :: rest =>
      match expect_col_bool selRef with
      | .ok selector =>
        match dataRef.deref cols with
        | some dcol =>
          match dcol.select selector with
          | .ok newCol => .ok (.ColumnRef (.fresh newCol) :: rest)
          | .vmErr e => .vmErr e
          | .panicked => .panicked
        | none => .panicked
      | .vmErr e => .vmErr e
      | .panicked => .panicked
    | .ColumnRef _ :: _ => .vmErr (.TypeError "expected a column value")
    | _ => .vmErr (.TypeError "expected a column value")
  | .AddVs => .vmErr .IllegalOpcode
  | .DivVs => .vmErr .IllegalOpcode

/-- `VM::run`: the source loops `while ip < code.len()` and every opcode
advances `ip` by exactly one with no jumps, which is structural
recursion over the instruction list; the `?` operator halts at the
first returned error and a panic aborts the run.  The value observed by
the caller is the final operand stack (`run` itself returns `Ok(())`
and `test_vm` inspects `vm.stack`). -/
def VM.run (cols : List Column) : List Op → List Value → Res (List Value)
  | [], stack => .ok stack
  | op :: rest, stack =>
    match VM.step cols stack op with
    | .ok stack2 => VM.run cols rest stack2
    | .vmErr e => .vmErr e
    | .panicked => .panicked

/-- The sample table of `test_vm` (`src/main.rs`): names, ages, and an
inline-text sex column. -/
def persons : List Column :=
  [ .Str ⟨["alice", "bob", "carol", "dave"]⟩,
    .Num ⟨[.finite 18, .finite 42, .finite 34, .finite 20]⟩,
    .InlineStr (InlineStrColumn.from_strs ["f", "m", "f", "m"]) ]

/-- The sample program of `test_vm`. -/
def personsProgram : List Op :=
  [ .Col 2, .Lit (.Str "f"), .FilterEq, .Col 0, .Select 1 ]

/-- Reading a replicated-zero word list at any index yields zero. -/
theorem getD_replicate_zero (k j : Nat) : (List.replicate k (0 : Nat)).getD j 0 = 0 := by
  rw [List.getD_eq_getElem?_getD, List.getElem?_replicate]
  split <;> rfl

/-- A freshly created bitmap index has no members. -/
theorem memb_for_col_len (n i : Nat) : (BitIndex.for_col_len n).memb i = false := by
  simp only [BitIndex.for_col_len, BitIndex.memb, getD_replicate_zero, Nat.zero_testBit]

/-- A member of `bi.set j` is a member of `bi` or is `j` itself. -/
theorem memb_set (bi : BitIndex) (j i : Nat)
    (h : (bi.set j).memb i = true) : bi.memb i = true ∨ i = j := by
  unfold BitIndex.set BitIndex.memb at *
  rw [List.getD_eq_getElem?_getD, List.getElem?_set] at h
  by_cases hb : j / 64 = i / 64
  · rw [if_pos hb] at h
    by_cases hl : j / 64 < bi.data.length
    · rw [if_pos hl] at h
      simp only [Option.getD_some] at h
      rw [Nat.shiftLeft_eq, one_mul, Nat.testBit_lor] at h
      rcases Bool.or_eq_true_iff.mp h with h2 | h2
      · left
        rw [List.getD_eq_getElem?_getD]
        rw [← hb]
        rw [← List.getD_eq_getElem?_getD]
        exact h2
      · right
        rw [Nat.testBit_two_pow] at h2
        have hm : j % 64 = i % 64 := of_decide_eq_true h2
        omega
    · rw [if_neg hl] at h
      simp at h
  · rw [if_neg hb] at h
    left
    rw [List.getD_eq_getElem?_getD]
    exact h

/-- A member of a fold of `set` calls comes from the start index or from
one of the set positions. -/
theorem memb_foldl_set {α : Type} (l : List (Nat × α)) (bi : BitIndex) (i : Nat)
    (h : (l.foldl (fun b p => b.set p.1) bi).memb i = true) :
    bi.memb i = true ∨ ∃ p ∈ l, p.1 = i := by
  induction l generalizing bi with
  | nil => exact .inl h
  | cons p rest ih =>
    simp only [List.foldl_cons] at h
    rcases ih _ h with h2 | ⟨q, hq, he⟩
    · rcases memb_set _ _ _ h2 with h3 | h3
      · exact .inl h3
      · exact .inr ⟨p, List.mem_cons_self _ _, h3.symm⟩
    · exact .inr ⟨q, List.mem_cons_of_mem _ hq, he⟩

/-- Every member of a `_filter_eq_bool` mask is a position of the
scanned column: the fold starts from an empty mask and sets only
positions enumerated by `enum`, each below the column's length. -/
theorem _filter_eq_bool_memb {α : Type} (eq : α → α → Bool) (col : List α) (val : α)
    (i : Nat) (h : (_filter_eq_bool eq col val).data.memb i = true) : i < col.length := by
  unfold _filter_eq_bool at h
  rcases memb_foldl_set _ _ _ h with h2 | ⟨p, hp, he⟩
  · rw [memb_for_col_len] at h2
    cases h2
  · obtain ⟨pi, px⟩ := p
    have hmem : (pi, px) ∈ col.enum := (List.mem_filter.mp hp).1
    have := List.mem_enum hmem
    omega

/-- Every member of the mask built by the inline-string filter loop
comes from the start index or from the list of scanned positions. -/
theorem inlineFilterGo_memb (data offsets sb : List Nat) (l : List Nat) :
    ∀ (bi pos : BitIndex), inlineFilterGo data offsets sb l bi = .ok pos →
    ∀ i, pos.memb i = true → bi.memb i = true ∨ i ∈ l := by
  induction l with
  | nil =>
    intro bi pos h i hm
    unfold inlineFilterGo at h
    cases h
    exact .inl hm
  | cons a rest ih =>
    intro bi pos h i hm
    unfold inlineFilterGo at h
    cases h1 : offsets[a]? with
    | none => rw [h1] at h; cases h2 : offsets[a + 1]? <;> rw [h2] at h <;> simp at h
    | some o1 =>
      cases h2 : offsets[a + 1]? with
      | none => rw [h1, h2] at h; simp at h
      | some o2 =>
        rw [h1, h2] at h
        dsimp only at h
        by_cases hc : o1 ≤ o2 ∧ o2 ≤ data.length
        · rw [if_pos hc] at h
          rcases ih _ _ h i hm with h3 | h3
          · by_cases hs : (data.take o2).drop o1 = sb
            · rw [if_pos hs] at h3
              rcases memb_set _ _ _ h3 with h4 | h4
              · exact .inl h4
              · exact .inr (h4 ▸ List.mem_cons_self _ _)
            · rw [if_neg hs] at h3
              exact .inl h3
          · exact .inr (List.mem_cons_of_mem _ h3)
        · rw [if_neg hc] at h
          exact Res.noConfusion h

/-- Claim C1: running the program `[Col(2), Lit(Text("f")), FilterEq,
Col(0), Select(1)]` on the table `[Text ["alice","bob","carol","dave"],
Num [18,42,34,20], InlineText ["f","m","f","m"]]` succeeds and leaves
exactly one value on the operand stack: a Text column equal to
`["alice","carol"]`. -/
theorem C1_end_to_end_run :
    VM.run persons personsProgram []
      = .ok [.ColumnRef (.fresh (.Str ⟨["alice", "carol"]⟩))] := by rfl

/-- Claim C2 (code defect, evaluated): on the inline-text column built
from `["a","bb","c"]` (whose offsets are `[0,1,3,4]`), filtering by
`"bb"` yields the mask with exactly position 1 set, but selecting that
mask panics instead of producing the column built from `["bb"]`: the
source appends `offsets[idx] + bytes.len()` where `offsets` is the
output vector being built and `idx` the member's source position, so it
indexes position 1 of the one-element output vector `[0]`. -/
theorem C2_inline_select_offset_defect :
    (InlineStrColumn.from_strs ["a", "bb", "c"]).offsets = [0, 1, 3, 4] ∧
    (InlineStrColumn.from_strs ["a", "bb", "c"]).filter (.Str "bb") = .ok ⟨⟨[2]⟩⟩ ∧
    (InlineStrColumn.from_strs ["a", "bb", "c"]).select ⟨⟨[2]⟩⟩ = .panicked :=
  ⟨by rfl, by rfl, by rfl⟩

/-- Claim C3 (code defect, evaluated): executing `Select` when the slot
beneath the data column is a non-Bool column that the table also
references does not return TypeError — `expect_col_bool` runs
`Rc::try_unwrap(v).unwrap()`, and the `unwrap` panics because the table
still holds a reference to the same column. -/
theorem C3_select_shared_ref_panics :
    VM.run [Column.Num ⟨[.finite 1]⟩] [.Col 0, .Col 0, .Select 1] [] = .panicked := by rfl

/-- Claim C4, counterexample: the complement of the (empty) bitmap index
created for logical length 3 reports position 3 — a padding position at
and beyond the logical length — as a member when its members are
iterated, so `complement` does not mask padding bits. -/
theorem C4_counterexample :
    3 ∈ (BitIndex.for_col_len 3).inverted.members := by decide

/-- Claim C4 as amended: `inverted` flips every stored word and masks
nothing, so every position below the word capacity (64 bits per word)
that is not a member of the original index becomes a member of its
complement — including every padding position at or beyond the logical
length. -/
theorem C4_amended_complement_unmasked :
    ∀ (bi : BitIndex) (i : Nat),
      i < 64 * bi.data.length → bi.memb i = false → bi.inverted.memb i = true := by
  intro bi i hlen hm
  unfold BitIndex.memb BitIndex.inverted at *
  have hidx : i / 64 < bi.data.length := Nat.div_lt_of_lt_mul hlen
  obtain ⟨w, hw⟩ : ∃ w, bi.data[i / 64]? = some w := ⟨_, List.getElem?_eq_getElem hidx⟩
  rw [List.getD_eq_getElem?_getD, hw, Option.getD_some] at hm
  rw [List.getD_eq_getElem?_getD, List.getElem?_map, hw, Option.map_some', Option.getD_some]
  rw [Nat.testBit_xor, Nat.testBit_two_pow_sub_one, hm]
  simp [Nat.mod_lt i (show 0 < 64 by norm_num)]

/-- Witness for the amended claim C4 at the concrete index of logical
length 3: position 3 is within the single word's capacity, is not a
member of the empty index, and is a member of the complement. -/
theorem C4_amended_complement_unmasked_witness :
    3 < 64 * (BitIndex.for_col_len 3).data.length ∧
    (BitIndex.for_col_len 3).memb 3 = false ∧
    (BitIndex.for_col_len 3).inverted.memb 3 = true :=
  ⟨by decide, by decide, C4_amended_complement_unmasked _ 3 (by decide) (by decide)⟩

/-- Claim C5 (code defect, evaluated): selecting a one-element Num
column with a mask whose only member position is 1 does not return
IndexError — `BitIndex::select` clones `col[idx]` unchecked and panics;
the same gather over a plain one-element sequence panics too. -/
theorem C5_select_out_of_range_panics :
    BitIndex.select (⟨[2]⟩ : BitIndex) ([5] : List Nat) = none ∧
    NumColumn.select ⟨[.finite 5]⟩ ⟨⟨[2]⟩⟩ = .panicked :=
  ⟨by rfl, by rfl⟩

/-- Claim C6 (code defect, evaluated): executing `Col(99)` against the
3-column sample table does not return IndexError — `Op::Col` indexes
`self.columns[idx]` unchecked and the run panics. -/
theorem C6_col_out_of_range_panics :
    VM.run persons [.Col 99] [] = .panicked := by rfl

/-- Claim C7 (code defect, evaluated): `BoolColumn::select` is
`unimplemented!()` — an unconditional panic, not a gather and not a
typed unsupported-operation error. -/
theorem C7_bool_select_crash :
    Column.select (.Bool ⟨⟨[1]⟩⟩) ⟨⟨[1]⟩⟩ = .panicked := by rfl

/-- Claim C8, counterexample: creating a bitmap index for 64 positions
allocates 2 words, not the exact ceiling `ceil(64/64) = 1`. -/
theorem C8_counterexample :
    (BitIndex.for_col_len 64).data.length ≠ (64 + 63) / 64 := by decide

/-- Claim C8 as amended: creating a bitmap index for `n` positions
allocates `n / 64 + 1` words — exactly `ceil(n/64)` when `n` is not a
multiple of 64, and one word more than the exact ceiling when 64
divides `n` (including `n = 0`). -/
theorem C8_amended_word_count :
    ∀ n : Nat, (BitIndex.for_col_len n).data.length
      = if n % 64 = 0 then (n + 63) / 64 + 1 else (n + 63) / 64 := by
  intro n
  simp only [BitIndex.for_col_len, List.length_replicate]
  split <;> omega

/-- Claim C9: for every Num, Text, RowId or InlineText column of length
`n` and every scalar, when `filter` returns a mask, every member
position of that mask (every set bit) is strictly below `n`. -/
theorem C9_filter_mask_below_length :
    ∀ (c : Column) (s : Scalar) (m : BoolColumn),
      isBoolRep c = false → c.filter s = .ok m →
      ∀ i, m.data.memb i = true → i < c.length := by
  intro c s m hb hf i hm
  cases c with
  | Bool c => simp [isBoolRep] at hb
  | Num c =>
    cases s <;> simp only [Column.filter, NumColumn.filter] at hf
    case Num x =>
      cases hf
      exact _filter_eq_bool_memb _ _ _ _ hm
    all_goals exact Res.noConfusion hf
  | Str c =>
    cases s <;> simp only [Column.filter, StrColumn.filter] at hf
    case Str x =>
      cases hf
      exact _filter_eq_bool_memb _ _ _ _ hm
    all_goals exact Res.noConfusion hf
  | Entity c =>
    cases s <;> simp only [Column.filter, EntityColumn.filter] at hf
    case Entity x =>
      cases hf
      exact _filter_eq_bool_memb _ _ _ _ hm
    all_goals exact Res.noConfusion hf
  | InlineStr c =>
    cases s <;> simp only [Column.filter, InlineStrColumn.filter] at hf
    case Str x =>
      by_cases h0 : c.offsets.length = 0
      · rw [if_pos h0] at hf
        exact Res.noConfusion hf
      · rw [if_neg h0] at hf
        cases hgo : inlineFilterGo c.data c.offsets (strBytes x)
            (List.range (c.offsets.length - 1))
            (BitIndex.for_col_len c.offsets.length) with
        | ok pos =>
          rw [hgo] at hf
          cases hf
          rcases inlineFilterGo_memb _ _ _ _ _ _ hgo i hm with h2 | h2
          · rw [memb_for_col_len] at h2
            cases h2
          · have := List.mem_range.mp h2
            simp only [Column.length]
            omega
        | vmErr e => rw [hgo] at hf; exact Res.noConfusion hf
        | panicked => rw [hgo] at hf; exact Res.noConfusion hf
    all_goals exact Res.noConfusion hf

/-- Witness for claim C9 at a concrete input: filtering the Num column
`[1, 2]` by the scalar `1` yields the mask with word `1` (bit 0 set);
position 0 is a member and lies below the column length 2. -/
theorem C9_filter_mask_below_length_witness :
    isBoolRep (Column.Num ⟨[.finite 1, .finite 2]⟩) = false ∧
    (Column.Num ⟨[.finite 1, .finite 2]⟩).filter (.Num (.finite 1)) = .ok ⟨⟨[1]⟩⟩ ∧
    (BoolColumn.mk ⟨[1]⟩).data.memb 0 = true ∧
    0 < (Column.Num ⟨[.finite 1, .finite 2]⟩).length :=
  ⟨by rfl, by rfl, by rfl,
    C9_filter_mask_below_length (Column.Num ⟨[.finite 1, .finite 2]⟩)
      (.Num (.finite 1)) ⟨⟨[1]⟩⟩ (by rfl) (by rfl) 0 (by rfl)⟩

/-- Claim C10: the numeric operand of `Select` is ignored — executing
`Select(n)` has exactly the same effect as `Select(1)` on every state;
and whenever `Select(n)` succeeds, the stack lost exactly its two top
slots (the data column and the mask) and gained exactly one freshly
allocated result column. -/
theorem C10_select_operand_ignored :
    ∀ (n : Nat) (cols : List Column) (stack : List Value),
      VM.step cols stack (.Select n) = VM.step cols stack (.Select 1) ∧
      ∀ stack2, VM.step cols stack (.Select n) = .ok stack2 →
        ∃ d sel rest c, stack = .ColumnRef d :: .ColumnRef sel :: rest ∧
          stack2 = .ColumnRef (.fresh c) :: rest := by
  intro n cols stack
  constructor
  · rfl
  · intro stack2 h
    match stack with
    | [] => exact Res.noConfusion h
    | .Scalar s :: rest => exact Res.noConfusion h
    | .ColumnRef d :: [] => exact Res.noConfusion h
    | .ColumnRef d :: .Scalar s :: rest => exact Res.noConfusion h
    | .ColumnRef d :: .ColumnRef sel :: rest =>
      simp only [VM.step] at h
      cases hsel : expect_col_bool sel with
      | ok selector =>
        rw [hsel] at h
        cases hd : d.deref cols with
        | some dcol =>
          rw [hd] at h
          dsimp only at h
          cases hres : dcol.select selector with
          | ok newCol =>
            rw [hres] at h
            cases h
            exact ⟨d, sel, rest, newCol, rfl, rfl⟩
          | vmErr e => rw [hres] at h; exact Res.noConfusion h
          | panicked => rw [hres] at h; exact Res.noConfusion h
        | none => rw [hd] at h; simp at h
      | vmErr e => rw [hsel] at h; exact Res.noConfusion h
      | panicked => rw [hsel] at h; exact Res.noConfusion h

/-- Witness for claim C10 at a concrete state: on the stack holding a
fresh empty Num column above a fresh empty Bool mask, `Select(7)` and
`Select(1)` coincide, and the successful step replaces the two slots by
the single fresh result column. -/
theorem C10_select_operand_ignored_witness :
    VM.step [] [Value.ColumnRef (.fresh (.Num ⟨[]⟩)),
        Value.ColumnRef (.fresh (.Bool ⟨⟨[0]⟩⟩))] (.Select 7)
      = VM.step [] [Value.ColumnRef (.fresh (.Num ⟨[]⟩)),
        Value.ColumnRef (.fresh (.Bool ⟨⟨[0]⟩⟩))] (.Select 1) ∧
    ∃ d sel rest c,
      [Value.ColumnRef (.fresh (.Num ⟨[]⟩)),
        Value.ColumnRef (.fresh (.Bool ⟨⟨[0]⟩⟩))]
        = Value.ColumnRef d :: Value.ColumnRef sel :: rest ∧
      [Value.ColumnRef (ColRef.fresh (Column.Num ⟨[]⟩))]
        = Value.ColumnRef (.fresh c) :: rest :=
  ⟨(C10_select_operand_ignored 7 [] _).1,
    (C10_select_operand_ignored 7 [] _).2 _ (by rfl)⟩

end Collie
